import Mathlib

/-!
Verification of the Unusual Wire Payment Transaction Report pipeline
(`Wire_Transfer_GUI.py`).

The program loads three SWIFT transaction batches and one KYC limit batch,
concatenates the transaction batches, applies a limit-correction rule
(a recorded limit of exactly 500 becomes 500 + 5,000,000), left-joins the
corrected limit table to the concatenated transactions on `Customer ID`,
and keeps the joined rows whose `Outgoing Wire Transfer Amount` strictly
exceeds the (corrected) `Wire Transfer Limit`.  A Streamlit UI then offers
a customer selector and three tabs (comparison chart, pie chart,
statistics table) over the flagged rows.

Monetary values are embedded as rationals (the comparisons the program
performs on its float columns are exact on the values involved).  A row of
the joined table carries the limit-side columns plus an optional
transaction-side record: `none` models the NaN-filled right side that a
pandas left merge produces for an unmatched limit row, and a pandas
comparison `NaN > x` is `False`, which the flag predicate reflects.
-/

namespace WireTransfer

/-- One row of a SWIFT transaction batch: `Customer ID`, `Customer Name`
(the SWIFT-side name that surfaces as `Customer Name_y` after the merge),
`Date of Transaction`, and `Outgoing Wire Transfer Amount`. -/
structure TransactionRecord where
  customerId : String
  customerName : String
  dateOfTransaction : String
  amount : ℚ
deriving DecidableEq, Repr

/-- One row of the `Wire Transfer KYC` batch: `Customer ID`,
`Customer Name` (surfacing as `Customer Name_x`), `Wire Transfer Limit`. -/
structure CustomerLimitRecord where
  customerId : String
  customerName : String
  limit : ℚ
deriving DecidableEq, Repr

/-- A row of `merge_tables`: the limit-side columns, plus the matched
transaction-side columns, `none` when the left merge found no match. -/
structure JoinedRecord where
  customerId : String
  customerName_x : String
  limit : ℚ
  txn : Option TransactionRecord
deriving DecidableEq, Repr

/-- The `Outgoing Wire Transfer Amount` column of a joined row
(`none` = NaN for a limit row without a matching transaction). -/
def JoinedRecord.amount (r : JoinedRecord) : Option ℚ :=
  r.txn.map TransactionRecord.amount

/-- The `Customer Name_y` column of a joined row. -/
def JoinedRecord.customerName_y (r : JoinedRecord) : Option String :=
  r.txn.map TransactionRecord.customerName

/-- `pd.concat([pd.concat([SWIFT, SWIFT_2]), SWIFT_3], ignore_index=True)`:
the three transaction batches, concatenated in order. -/
def SWIFT_MERGE_2 (s1 s2 s3 : List TransactionRecord) : List TransactionRecord :=
  (s1 ++ s2) ++ s3

/-- `np.where(limit == 500, limit + 5000000.00, limit)` applied to one
limit value. -/
def correctLimit (l : ℚ) : ℚ :=
  if l = 500 then l + 5000000 else l

/-- The corrected KYC table `WT_KYC_2`: the correction rule applied to the
`Wire Transfer Limit` column of every row. -/
def WT_KYC_2 (kyc : List CustomerLimitRecord) : List CustomerLimitRecord :=
  kyc.map fun r => { r with limit := correctLimit r.limit }

/-- A joined row produced by a limit row matched with a transaction row. -/
def joinRow (l : CustomerLimitRecord) (t : TransactionRecord) : JoinedRecord :=
  ⟨l.customerId, l.customerName, l.limit, some t⟩

/-- A joined row produced by a limit row with no matching transaction:
the transaction-side columns are NaN. -/
def nullRow (l : CustomerLimitRecord) : JoinedRecord :=
  ⟨l.customerId, l.customerName, l.limit, none⟩

/-- The transactions whose `Customer ID` equals a given limit row's. -/
def matchesOf (txns : List TransactionRecord) (l : CustomerLimitRecord) :
    List TransactionRecord :=
  txns.filter fun t => t.customerId == l.customerId

/-- The rows a single left-side (limit) row contributes to the merge:
all matches in right-side order, or one NaN-padded row when there is none. -/
def rowsOf (txns : List TransactionRecord) (l : CustomerLimitRecord) :
    List JoinedRecord :=
  match matchesOf txns l with
  | [] => [nullRow l]
  | ms => ms.map (joinRow l)

/-- `pd.merge(WT_KYC_2, SWIFT_MERGE_2, on='Customer ID', how='left')`:
left rows in order, each followed by its matches in right order, with one
NaN-padded row for an unmatched left row. -/
def merge_tables (kyc2 : List CustomerLimitRecord)
    (txns : List TransactionRecord) : List JoinedRecord :=
  kyc2.flatMap (rowsOf txns)

/-- The boolean mask
`merge_tables['Outgoing Wire Transfer Amount'] > merge_tables['Wire Transfer Limit']`:
on a NaN amount (unmatched limit row) the pandas comparison is `False`. -/
def exceedsLimit (r : JoinedRecord) : Bool :=
  match r.txn with
  | some t => decide (r.limit < t.amount)
  | none => false

/-- The flagged subset for one transaction table joined against one
(already corrected) limit table. -/
def flaggedOf (kyc2 : List CustomerLimitRecord)
    (txns : List TransactionRecord) : List JoinedRecord :=
  (merge_tables kyc2 txns).filter exceedsLimit

/-- `load_data()`: concatenate the three SWIFT batches, correct the KYC
limits, left-join, and keep the rows exceeding their limit
(`unusual_wp_increase`). -/
def load_data (s1 s2 s3 : List TransactionRecord)
    (kyc : List CustomerLimitRecord) : List JoinedRecord :=
  flaggedOf (WT_KYC_2 kyc) (SWIFT_MERGE_2 s1 s2 s3)

/-! ## Top-level error handling (lines 53-61)

`load_data()` and the subsequent date conversion run inside a
`try` block whose handler catches every exception, shows
`st.error(f"Error loading data: {e}")` and calls `st.stop()`, so no
dashboard is rendered. -/

/-- Modelled from the spec: the failure modes of the loader.  The raising
code lives inside pandas (`pd.read_csv`, column access, `pd.to_datetime`),
which is not part of this repository; the spec groups the modes into
`DataLoadError` (missing/malformed file, missing required columns) and
`DataTypeError` (unparseable date, non-numeric amount/limit). -/
inductive LoadFailure
  | missingFile
  | malformedFile
  | missingColumn
  | unparseableDate
  | nonNumericField
deriving DecidableEq, Repr

/-- The exception text carried by a load failure. -/
def LoadFailure.message : LoadFailure → String
  | .missingFile => "file not found"
  | .malformedFile => "malformed input file"
  | .missingColumn => "missing required column"
  | .unparseableDate => "cannot parse date"
  | .nonNumericField => "non-numeric amount or limit"

/-- Outcome of running `load_data()` plus the date conversion inside the
`try` block: either every step succeeded, or some step raised. -/
inductive LoadOutcome
  | failure (e : LoadFailure)
  | success (flagged : List JoinedRecord)
deriving DecidableEq, Repr

/-- What the page shows after the `try`/`except`: on any exception the
handler renders an error message and halts (`st.stop()`), otherwise the
dashboard over the flagged rows is built. -/
inductive PageResult
  | errorHalt (msg : String)
  | dashboard (flagged : List JoinedRecord)
deriving DecidableEq, Repr

/-- Lines 53-61: the `try`/`except` around `load_data()`. -/
def topLevel (r : LoadOutcome) : PageResult :=
  match r with
  | .failure e => .errorHalt ("Error loading data: " ++ e.message)
  | .success flagged => .dashboard flagged

/-! ## UI layer (lines 69-170) -/

/-- Lines 83-88: customer-scoped filtering of the flagged rows.  In pandas
`NaN == name` is `False`, which the `Option` comparison reflects. -/
def filtered_data (unusual : List JoinedRecord) (selected : String) :
    List JoinedRecord :=
  if selected ≠ "All" then
    unusual.filter fun r => r.customerName_y == some selected
  else unusual

/-- Pandas `Series.sum()` over the `Wire Transfer Limit` column. -/
def sumLimits (rows : List JoinedRecord) : ℚ :=
  (rows.map JoinedRecord.limit).sum

/-- Pandas `Series.sum()` over the `Outgoing Wire Transfer Amount` column
(NaN entries are skipped). -/
def sumAmounts (rows : List JoinedRecord) : ℚ :=
  (rows.filterMap JoinedRecord.amount).sum

/-- What tab 1 (the two-bar comparison) renders. -/
inductive Tab1View
  | chart (totalLimit totalTransfer : ℚ)
  | selectCustomerMsg
  | noDataWarning
deriving DecidableEq, Repr

/-- Lines 93-126: the comparison chart, or an instructional error message
when "All" is selected, or a warning when the selection has no rows. -/
def tab1 (unusual : List JoinedRecord) (selected : String) : Tab1View :=
  let fd := filtered_data unusual selected
  if fd.isEmpty = false ∧ selected ≠ "All" then
    .chart (sumLimits fd) (sumAmounts fd)
  else if selected = "All" then .selectCustomerMsg
  else .noDataWarning

/-- What tab 2 (the pie chart) renders: the two slice sizes and the
divisor of the percentage labels. -/
inductive Tab2View
  | chart (filteredTotal remainingTotal overallTotal : ℚ)
  | selectCustomerMsg
  | noDataWarning
deriving DecidableEq, Repr

/-- Lines 128-153: the pie chart over `[filtered_total, remaining_total]`
with label percentages divided by `overall_total`, or an instructional
error message when "All" is selected, or a warning on an empty selection. -/
def tab2 (unusual : List JoinedRecord) (selected : String) : Tab2View :=
  let fd := filtered_data unusual selected
  if fd.isEmpty = false ∧ selected ≠ "All" then
    let filteredTotal := sumAmounts fd
    let overallTotal := sumAmounts unusual
    .chart filteredTotal (overallTotal - filteredTotal) overallTotal
  else if selected = "All" then .selectCustomerMsg
  else .noDataWarning

/-- The per-customer count block of tab 3. -/
inductive CountView
  | metric (count : Nat)
  | selectCustomerInfo
deriving DecidableEq, Repr

/-- What tab 3 renders: the count block plus the dataset over which the
descriptive-statistics table (`describe()`) is displayed. -/
structure Tab3View where
  countPart : CountView
  statsData : List JoinedRecord
deriving DecidableEq, Repr

/-- Lines 155-170: appearance count for a specific customer (or an info
message under "All"), and the statistics table over the full flagged set
in either case. -/
def tab3 (unusual : List JoinedRecord) (selected : String) : Tab3View :=
  ⟨if selected ≠ "All" then
      .metric (unusual.filter (fun r => r.customerName_y == some selected)).length
    else .selectCustomerInfo,
   unusual⟩

/-- The in-memory state a dashboard session holds after the load phase. -/
structure SessionState where
  unusual_wp_increase : List JoinedRecord
deriving DecidableEq, Repr

/-- The three tab views rendered for one selection. -/
structure RenderedViews where
  t1 : Tab1View
  t2 : Tab2View
  t3 : Tab3View
deriving DecidableEq, Repr

/-- Lines 81-170 as a state transformer: customer-scoped filtering, chart
rendering and statistics computation read the session's flagged dataset
and build fresh views; the resulting state is returned alongside. -/
def renderDashboard (s : SessionState) (selected : String) :
    SessionState × RenderedViews :=
  (s, ⟨tab1 s.unusual_wp_increase selected,
       tab2 s.unusual_wp_increase selected,
       tab3 s.unusual_wp_increase selected⟩)

/-! ## Helper lemmas about the join -/

theorem rowsOf_ne_nil (txns : List TransactionRecord) (l : CustomerLimitRecord) :
    rowsOf txns l ≠ [] := by
  unfold rowsOf
  cases h : matchesOf txns l with
  | nil => simp
  | cons t ts => simp

theorem mem_rowsOf {txns : List TransactionRecord} {l : CustomerLimitRecord}
    {r : JoinedRecord} (h : r ∈ rowsOf txns l) :
    r.customerId = l.customerId ∧ r.customerName_x = l.customerName ∧
      r.limit = l.limit ∧ ∀ t, r.txn = some t → t ∈ matchesOf txns l := by
  unfold rowsOf at h
  cases hm : matchesOf txns l with
  | nil =>
    rw [hm] at h
    simp only [List.mem_singleton] at h
    subst h
    refine ⟨rfl, rfl, rfl, ?_⟩
    intro t ht
    cases ht
  | cons t0 ts =>
    rw [hm] at h
    rcases List.mem_map.mp h with ⟨t, htm, rfl⟩
    refine ⟨rfl, rfl, rfl, ?_⟩
    intro t' ht'
    cases ht'
    exact htm

theorem merge_cons (l : CustomerLimitRecord) (ls : List CustomerLimitRecord)
    (txns : List TransactionRecord) :
    merge_tables (l :: ls) txns = rowsOf txns l ++ merge_tables ls txns := by
  simp [merge_tables, List.flatMap_cons]

theorem filter_flatMap_comm {α β : Type} (p : β → Bool) (l : List α) (f : α → List β) :
    (l.flatMap f).filter p = l.flatMap fun x => (f x).filter p := by
  induction l with
  | nil => rfl
  | cons x xs ih => simp [List.flatMap_cons, List.filter_append, ih]

theorem rowsOf_filter_count (txns : List TransactionRecord) (l : CustomerLimitRecord) :
    ((rowsOf txns l).filter fun r => r.customerId == l.customerId && r.txn.isSome).length
      = (matchesOf txns l).length := by
  unfold rowsOf
  cases hm : matchesOf txns l with
  | nil => simp [nullRow]
  | cons t0 ts =>
    rw [List.filter_map]
    rw [List.length_map, List.filter_length_eq_length.mpr]
    intro t ht
    simp [joinRow]

theorem rowsOf_filter_ne (txns : List TransactionRecord) (l : CustomerLimitRecord)
    (c : String) (h : l.customerId ≠ c) :
    (rowsOf txns l).filter (fun r => r.customerId == c && r.txn.isSome) = [] := by
  rw [List.filter_eq_nil_iff]
  intro r hr
  have h1 := (mem_rowsOf hr).1
  simp [h1, h]

theorem merge_filter_zero (txns : List TransactionRecord) (c : String) :
    ∀ ls : List CustomerLimitRecord, (∀ l' ∈ ls, l'.customerId ≠ c) →
      (merge_tables ls txns).filter (fun r => r.customerId == c && r.txn.isSome) = [] := by
  intro ls
  induction ls with
  | nil => intro _; rfl
  | cons l ls ih =>
    intro h
    rw [merge_cons, List.filter_append]
    rw [rowsOf_filter_ne txns l c (h l (List.mem_cons_self l ls)),
      ih fun l' hl' => h l' (List.mem_cons_of_mem l hl')]
    rfl

theorem merge_filter_count (txns : List TransactionRecord)
    (kyc2 : List CustomerLimitRecord)
    (hnd : (kyc2.map CustomerLimitRecord.customerId).Nodup)
    (l₀ : CustomerLimitRecord) (hl : l₀ ∈ kyc2) :
    ((merge_tables kyc2 txns).filter fun r =>
        r.customerId == l₀.customerId && r.txn.isSome).length
      = (matchesOf txns l₀).length := by
  induction kyc2 with
  | nil => cases hl
  | cons l ls ih =>
    rw [List.map_cons, List.nodup_cons] at hnd
    rw [merge_cons, List.filter_append, List.length_append]
    rcases List.mem_cons.mp hl with rfl | hl'
    · rw [rowsOf_filter_count]
      have hz : ∀ l' ∈ ls, l'.customerId ≠ l₀.customerId := by
        intro l' hl' he
        exact hnd.1 (he ▸ List.mem_map_of_mem CustomerLimitRecord.customerId hl')
      rw [merge_filter_zero txns l₀.customerId ls hz]
      simp
    · have hne : l.customerId ≠ l₀.customerId := by
        intro he
        exact hnd.1 (he ▸ List.mem_map_of_mem CustomerLimitRecord.customerId hl')
      rw [rowsOf_filter_ne txns l l₀.customerId hne, ih hnd.2 hl']
      simp

theorem length_merge_ge (kyc2 : List CustomerLimitRecord)
    (txns : List TransactionRecord) :
    kyc2.length ≤ (merge_tables kyc2 txns).length := by
  induction kyc2 with
  | nil => simp [merge_tables]
  | cons l ls ih =>
    rw [merge_cons, List.length_append, List.length_cons]
    have h1 : 1 ≤ (rowsOf txns l).length :=
      List.length_pos.mpr (rowsOf_ne_nil txns l)
    omega

/-! ## Claim theorems -/

/-- C3: the limit-correction rule is idempotent: for any limit value L,
applying the correction twice yields the same result as applying it once
(only the exact value 500 is transformed, and the transformed value
5,000,500 is never 500 again). -/
theorem correction_idempotent :
    ∀ l : ℚ, correctLimit (correctLimit l) = correctLimit l := by
  intro l
  by_cases h : l = 500
  · subst h
    norm_num [correctLimit]
  · simp [correctLimit, h]

/-- C5: the three transaction batches are concatenated into one ordered
sequence preserving within-batch order and batch order (batch 1, then 2,
then 3), with no deduplication: the length is the sum of the three batch
lengths, and the i-th element comes from batch 1, 2 or 3 according to
this ordering. -/
theorem swift_concat_spec (s1 s2 s3 : List TransactionRecord) :
    (SWIFT_MERGE_2 s1 s2 s3).length = s1.length + s2.length + s3.length ∧
    ∀ i : Nat, (SWIFT_MERGE_2 s1 s2 s3)[i]? =
      if i < s1.length then s1[i]?
      else if i < s1.length + s2.length then s2[i - s1.length]?
      else s3[i - (s1.length + s2.length)]? := by
  constructor
  · simp [SWIFT_MERGE_2]
    omega
  · intro i
    unfold SWIFT_MERGE_2
    by_cases h1 : i < s1.length
    · rw [List.getElem?_append_left (by simp; omega),
        List.getElem?_append_left h1, if_pos h1]
    · by_cases h2 : i < s1.length + s2.length
      · rw [List.getElem?_append_left (by simp; omega),
          List.getElem?_append_right (Nat.le_of_not_lt h1), if_neg h1, if_pos h2]
      · rw [List.getElem?_append_right (by simp; omega), if_neg h1, if_neg h2]
        congr 1
        simp only [List.length_append]

/-- C7: any load failure (missing or malformed file, missing column,
unparseable date, non-numeric field) is caught by the top-level handler
and surfaced as a user-visible error message, and the page halts: the
result is never a dashboard. -/
theorem load_failure_halts :
    ∀ e : LoadFailure,
      topLevel (.failure e) = .errorHalt ("Error loading data: " ++ e.message) ∧
      ∀ flagged, topLevel (.failure e) ≠ .dashboard flagged := by
  intro e
  refine ⟨rfl, ?_⟩
  intro flagged h
  cases h

/-- Witness for C7 at a concrete failure. -/
theorem load_failure_halts_witness :
    topLevel (.failure .missingFile) =
      .errorHalt "Error loading data: file not found" :=
  (load_failure_halts .missingFile).1

/-- C8: when "All" is selected, the comparison chart and the distribution
chart are both replaced by an explanatory message, while the statistics
table is still rendered over the full flagged dataset. -/
theorem all_selected_views (unusual : List JoinedRecord) :
    tab1 unusual "All" = .selectCustomerMsg ∧
    tab2 unusual "All" = .selectCustomerMsg ∧
    (tab3 unusual "All").countPart = .selectCustomerInfo ∧
    (tab3 unusual "All").statsData = unusual := by
  refine ⟨?_, ?_, ?_, rfl⟩ <;> simp [tab1, tab2, tab3]

/-- C9: rendering the dashboard for any selection leaves the session state
(the loaded flagged dataset) unchanged; the customer-scoped view is a
read-only sub-selection of the flagged dataset, and the statistics table
reads the flagged dataset as is. -/
theorem render_no_mutation (s : SessionState) (selected : String) :
    (renderDashboard s selected).1 = s ∧
    (filtered_data s.unusual_wp_increase selected).Sublist s.unusual_wp_increase ∧
    (renderDashboard s selected).2.t3.statsData = s.unusual_wp_increase := by
  refine ⟨rfl, ?_, rfl⟩
  unfold filtered_data
  by_cases h : selected ≠ "All"
  · rw [if_pos h]
    exact List.filter_sublist _
  · rw [if_neg h]

theorem exceedsLimit_iff (r : JoinedRecord) :
    exceedsLimit r = true ↔ ∃ a, r.amount = some a ∧ r.limit < a := by
  unfold exceedsLimit JoinedRecord.amount
  cases r.txn with
  | none => simp
  | some t => simp

/-- C1: a row of the joined table appears in the flagged set if and only
if its amount field is non-null and strictly greater than its (corrected)
limit field; a row whose amount equals its limit is excluded, and a row
with a null amount (limit row with no matching transaction) is excluded. -/
theorem flagged_iff_exceeds (s1 s2 s3 : List TransactionRecord)
    (kyc : List CustomerLimitRecord) (r : JoinedRecord) :
    (r ∈ load_data s1 s2 s3 kyc ↔
      r ∈ merge_tables (WT_KYC_2 kyc) (SWIFT_MERGE_2 s1 s2 s3) ∧
        ∃ a, r.amount = some a ∧ r.limit < a) ∧
    (r.amount = some r.limit → r ∉ load_data s1 s2 s3 kyc) ∧
    (r.amount = none → r ∉ load_data s1 s2 s3 kyc) := by
  have hmain : r ∈ load_data s1 s2 s3 kyc ↔
      r ∈ merge_tables (WT_KYC_2 kyc) (SWIFT_MERGE_2 s1 s2 s3) ∧
        ∃ a, r.amount = some a ∧ r.limit < a := by
    unfold load_data flaggedOf
    rw [List.mem_filter, exceedsLimit_iff]
  refine ⟨hmain, ?_, ?_⟩
  · intro heq hmem
    rcases (hmain.mp hmem).2 with ⟨a, ha, hlt⟩
    rw [heq] at ha
    cases ha
    exact lt_irrefl _ hlt
  · intro heq hmem
    rcases (hmain.mp hmem).2 with ⟨a, ha, _⟩
    rw [heq] at ha
    cases ha

/-- Witness for C1: a limit row with no matching transaction (null
amount) is not flagged. -/
theorem flagged_iff_exceeds_witness :
    (⟨"C3", "Nia", 100, none⟩ : JoinedRecord) ∉
      load_data [] [] [] [⟨"C3", "Nia", 100⟩] :=
  (flagged_iff_exceeds [] [] [] [⟨"C3", "Nia", 100⟩] ⟨"C3", "Nia", 100, none⟩).2.2 rfl

/-- C2: the load-time correction maps a recorded limit of exactly 500 to
500 + 5,000,000 = 5,000,500 and leaves every other limit unchanged; for a
customer with recorded limit 500, a transaction of amount 6,000,000 is
flagged and a transaction of amount 5,000,000 is not. -/
theorem limit_correction_spec :
    correctLimit 500 = 500 + 5000000 ∧
    correctLimit 500 = 5000500 ∧
    (∀ l : ℚ, l ≠ 500 → correctLimit l = l) ∧
    load_data [⟨"C1", "Ana", "2025-01-01", 6000000⟩] [] [] [⟨"C1", "Ana", 500⟩] =
      [⟨"C1", "Ana", 5000500, some ⟨"C1", "Ana", "2025-01-01", 6000000⟩⟩] ∧
    load_data [⟨"C1", "Ana", "2025-01-01", 5000000⟩] [] [] [⟨"C1", "Ana", 500⟩] = [] := by
  refine ⟨by norm_num [correctLimit], by norm_num [correctLimit], ?_, ?_, ?_⟩
  · intro l h
    simp [correctLimit, h]
  · have hx : exceedsLimit
        ⟨"C1", "Ana", 5000500, some ⟨"C1", "Ana", "2025-01-01", 6000000⟩⟩ = true := by
      rw [exceedsLimit_iff]
      exact ⟨6000000, rfl, by norm_num⟩
    have h500 : correctLimit 500 = (5000500 : ℚ) := by norm_num [correctLimit]
    simp [load_data, flaggedOf, merge_tables, SWIFT_MERGE_2, WT_KYC_2, rowsOf,
      matchesOf, h500, joinRow, hx]
  · have hx : exceedsLimit
        ⟨"C1", "Ana", 5000500, some ⟨"C1", "Ana", "2025-01-01", 5000000⟩⟩ = false := by
      rw [← Bool.not_eq_true, exceedsLimit_iff]
      rintro ⟨a, ha, hlt⟩
      cases ha
      norm_num at hlt
    have h500 : correctLimit 500 = (5000500 : ℚ) := by norm_num [correctLimit]
    simp [load_data, flaggedOf, merge_tables, SWIFT_MERGE_2, WT_KYC_2, rowsOf,
      matchesOf, h500, joinRow, hx]

/-- Witness for C2: a limit different from 500 passes through unchanged. -/
theorem limit_correction_spec_witness : correctLimit 7 = 7 :=
  limit_correction_spec.2.2.1 7 (by decide)

/-- C4: the merge is a left join keyed on customer identifier with the
limit table preserved: it has at least as many rows as the limit table;
every limit row appears at least once (as a NaN-padded row if unmatched);
a limit row with N matching transactions yields exactly N joined rows,
each carrying its limit and customer metadata; and a joined row's
transaction always matches some limit row, so unmatched transactions
contribute nothing. -/
theorem left_join_spec (kyc2 : List CustomerLimitRecord)
    (txns : List TransactionRecord)
    (hnd : (kyc2.map CustomerLimitRecord.customerId).Nodup) :
    kyc2.length ≤ (merge_tables kyc2 txns).length ∧
    (∀ l ∈ kyc2, ∃ r ∈ merge_tables kyc2 txns,
        r.customerId = l.customerId ∧ r.customerName_x = l.customerName ∧
          r.limit = l.limit) ∧
    (∀ l ∈ kyc2, matchesOf txns l = [] → nullRow l ∈ merge_tables kyc2 txns) ∧
    (∀ l ∈ kyc2,
        ((merge_tables kyc2 txns).filter fun r =>
            r.customerId == l.customerId && r.txn.isSome).length
          = (matchesOf txns l).length) ∧
    (∀ l ∈ kyc2, ∀ r ∈ merge_tables kyc2 txns, r.customerId = l.customerId →
        r.customerName_x = l.customerName ∧ r.limit = l.limit) ∧
    (∀ r ∈ merge_tables kyc2 txns, ∀ t, r.txn = some t →
        ∃ l ∈ kyc2, l.customerId = t.customerId) := by
  refine ⟨length_merge_ge kyc2 txns, ?_, ?_, ?_, ?_, ?_⟩
  · intro l hl
    have hne := rowsOf_ne_nil txns l
    have hhd : (rowsOf txns l).head hne ∈ rowsOf txns l := List.head_mem hne
    have hf := mem_rowsOf hhd
    exact ⟨(rowsOf txns l).head hne,
      List.mem_flatMap.mpr ⟨l, hl, hhd⟩, hf.1, hf.2.1, hf.2.2.1⟩
  · intro l hl hm
    refine List.mem_flatMap.mpr ⟨l, hl, ?_⟩
    unfold rowsOf
    rw [hm]
    exact List.mem_singleton.mpr rfl
  · intro l hl
    exact merge_filter_count txns kyc2 hnd l hl
  · intro l hl r hr hid
    rcases List.mem_flatMap.mp hr with ⟨l', hl', hr'⟩
    have hf := mem_rowsOf hr'
    have : l' = l :=
      List.inj_on_of_nodup_map hnd hl' hl (by rw [← hf.1, hid])
    subst this
    exact ⟨hf.2.1, hf.2.2.1⟩
  · intro r hr t ht
    rcases List.mem_flatMap.mp hr with ⟨l, hl, hr'⟩
    have hm := (mem_rowsOf hr').2.2.2 t ht
    have := List.of_mem_filter hm
    exact ⟨l, hl, (eq_of_beq this).symm⟩

/-- Witness for C4 at a one-row limit table with no transactions. -/
theorem left_join_spec_witness :
    1 ≤ (merge_tables [⟨"A", "Ada", 100⟩] ([] : List TransactionRecord)).length :=
  (left_join_spec [⟨"A", "Ada", 100⟩] [] (by simp)).1

theorem matchesOf_append (a b : List TransactionRecord) (l : CustomerLimitRecord) :
    matchesOf (a ++ b) l = matchesOf a l ++ matchesOf b l := by
  simp [matchesOf, List.filter_append]

theorem flagged_flatMap (kyc2 : List CustomerLimitRecord)
    (txns : List TransactionRecord) :
    flaggedOf kyc2 txns = kyc2.flatMap fun l =>
      ((matchesOf txns l).filter fun t => decide (l.limit < t.amount)).map (joinRow l) := by
  unfold flaggedOf merge_tables
  rw [filter_flatMap_comm]
  congr 1
  funext l
  cases h : matchesOf txns l with
  | nil => simp [rowsOf, h, exceedsLimit, nullRow]
  | cons t0 ts =>
    simp only [rowsOf, h]
    rw [List.filter_map]
    rfl

theorem flaggedOf_append_perm (kyc2 : List CustomerLimitRecord)
    (a b : List TransactionRecord) :
    (flaggedOf kyc2 (a ++ b)).Perm (flaggedOf kyc2 a ++ flaggedOf kyc2 b) := by
  have key : flaggedOf kyc2 (a ++ b) = kyc2.flatMap fun l =>
      (((matchesOf a l).filter fun t => decide (l.limit < t.amount)).map (joinRow l)) ++
      (((matchesOf b l).filter fun t => decide (l.limit < t.amount)).map (joinRow l)) := by
    rw [flagged_flatMap]
    congr 1
    funext l
    rw [matchesOf_append, List.filter_append, List.map_append]
  rw [key, flagged_flatMap kyc2 a, flagged_flatMap kyc2 b]
  exact (List.flatMap_append_perm _ _ _).symm

/-- C6: the flagged set of the concatenated batches equals, as a multiset,
the union of the three flagged sets obtained by joining and filtering each
batch separately against the same limit table. -/
theorem concat_flag_union (s1 s2 s3 : List TransactionRecord)
    (kyc : List CustomerLimitRecord) :
    (load_data s1 s2 s3 kyc : Multiset JoinedRecord) =
      (flaggedOf (WT_KYC_2 kyc) s1 : Multiset JoinedRecord) +
        (flaggedOf (WT_KYC_2 kyc) s2 : Multiset JoinedRecord) +
        (flaggedOf (WT_KYC_2 kyc) s3 : Multiset JoinedRecord) := by
  have h1 : (flaggedOf (WT_KYC_2 kyc) ((s1 ++ s2) ++ s3)).Perm
      ((flaggedOf (WT_KYC_2 kyc) s1 ++ flaggedOf (WT_KYC_2 kyc) s2) ++
        flaggedOf (WT_KYC_2 kyc) s3) :=
    (flaggedOf_append_perm (WT_KYC_2 kyc) (s1 ++ s2) s3).trans
      ((flaggedOf_append_perm (WT_KYC_2 kyc) s1 s2).append_right _)
  have h2 : (load_data s1 s2 s3 kyc : Multiset JoinedRecord) =
      ↑((flaggedOf (WT_KYC_2 kyc) s1 ++ flaggedOf (WT_KYC_2 kyc) s2) ++
        flaggedOf (WT_KYC_2 kyc) s3) :=
    Multiset.coe_eq_coe.mpr h1
  rw [h2]
  simp

/-- C10: the pie-chart percentage labels divide by the overall total of
outgoing amounts over the full flagged set; if every flagged amount is
strictly positive and a specific customer with at least one flagged row is
selected, the chart is rendered with that divisor and the divisor is
strictly positive, so the division never has a zero denominator. -/
theorem pie_divisor_pos (unusual : List JoinedRecord) (selected : String)
    (hpos : ∀ r ∈ unusual, ∀ t, r.txn = some t → 0 < t.amount)
    (hsel : selected ≠ "All")
    (hne : filtered_data unusual selected ≠ []) :
    tab2 unusual selected =
      .chart (sumAmounts (filtered_data unusual selected))
        (sumAmounts unusual - sumAmounts (filtered_data unusual selected))
        (sumAmounts unusual) ∧
    0 < sumAmounts unusual := by
  have hif : (filtered_data unusual selected).isEmpty = false := by
    cases hfd : filtered_data unusual selected with
    | nil => exact absurd hfd hne
    | cons x xs => rfl
  constructor
  · simp [tab2, hif, hsel]
  · have hfd : filtered_data unusual selected =
        unusual.filter fun r => r.customerName_y == some selected := by
      unfold filtered_data
      rw [if_pos hsel]
    rw [hfd] at hne
    have hr₀ : (unusual.filter fun r => r.customerName_y == some selected).head hne ∈
        unusual.filter fun r => r.customerName_y == some selected :=
      List.head_mem hne
    set r₀ := (unusual.filter fun r => r.customerName_y == some selected).head hne with hr₀def
    have hr₀u : r₀ ∈ unusual := List.mem_of_mem_filter hr₀
    have hp := List.of_mem_filter hr₀
    have hsome : ∃ t, r₀.txn = some t := by
      unfold JoinedRecord.customerName_y at hp
      cases ht : r₀.txn with
      | none =>
        rw [ht] at hp
        simp at hp
      | some t => exact ⟨t, rfl⟩
    obtain ⟨t₀, ht₀⟩ := hsome
    have hmem : t₀.amount ∈ unusual.filterMap JoinedRecord.amount :=
      List.mem_filterMap.mpr ⟨r₀, hr₀u, by simp [JoinedRecord.amount, ht₀]⟩
    have hnil : unusual.filterMap JoinedRecord.amount ≠ [] :=
      List.ne_nil_of_mem hmem
    have hall : ∀ a ∈ unusual.filterMap JoinedRecord.amount, 0 < a := by
      intro a ha
      rcases List.mem_filterMap.mp ha with ⟨r, hru, hra⟩
      unfold JoinedRecord.amount at hra
      cases ht : r.txn with
      | none =>
        rw [ht] at hra
        simp at hra
      | some t =>
        rw [ht] at hra
        simp only [Option.map_some', Option.some.injEq] at hra
        rw [← hra]
        exact hpos r hru t ht
    exact List.sum_pos _ hall hnil

/-- Witness for C10 at a one-row flagged set with a positive amount. -/
theorem pie_divisor_pos_witness :
    tab2 [⟨"C1", "Ana", 100, some ⟨"C1", "Ana", "d", 200⟩⟩] "Ana" =
      .chart
        (sumAmounts (filtered_data [⟨"C1", "Ana", 100, some ⟨"C1", "Ana", "d", 200⟩⟩] "Ana"))
        (sumAmounts [⟨"C1", "Ana", 100, some ⟨"C1", "Ana", "d", 200⟩⟩] -
          sumAmounts (filtered_data [⟨"C1", "Ana", 100, some ⟨"C1", "Ana", "d", 200⟩⟩] "Ana"))
        (sumAmounts [⟨"C1", "Ana", 100, some ⟨"C1", "Ana", "d", 200⟩⟩]) ∧
    0 < sumAmounts [⟨"C1", "Ana", 100, some ⟨"C1", "Ana", "d", 200⟩⟩] :=
  pie_divisor_pos [⟨"C1", "Ana", 100, some ⟨"C1", "Ana", "d", 200⟩⟩] "Ana"
    (by
      intro r hr t ht
      simp only [List.mem_singleton] at hr
      subst hr
      cases ht
      decide)
    (by decide)
    (by decide)

end WireTransfer
